import Mathlib

/-!
# Verification of the Rule5DraftDash data pipeline

A shallow embedding of the data-acquisition and merge pipeline of the
Rule5DraftDash repository (`src/data/data_processing.py`,
`src/data/fangraphs.py`, `src/data/fangraphs_minors_stats.py`,
`src/data/prospect_savant.py`), together with theorems settling the
behavioural claims about it.

Pandas `DataFrame`s are modelled as a list of column labels plus a list of
rows, where a row is an association list from column label to cell value.
Cell values are strings, exact rationals (standing for the Python floats,
which in this pipeline always arise from decimal JSON literals), or
`NaN`/`None` (both collapsed to `vNone`; pandas itself stores Python `None`
as `NaN` in object columns it operates on here).  Operations that can raise
a Python exception (`KeyError` on a missing column) return
`Except String _`.  In-place mutation of an argument (the pipeline mutates
`savant_df` when it adds the `name_norm` column) is modelled by returning
the final state of that argument alongside the result.

String operations (`str.strip`, `str.lower`, `str.split`, substring test)
are implemented by structural recursion on the character list so that every
definition evaluates inside the kernel; they agree with the Python
operations on the ASCII data this pipeline handles.  Rational arithmetic
and comparison are implemented through `mkRat` for the same reason.
-/

namespace Rule5

/-- A pandas cell value: a string, a numeric value (exact rational standing
for the Python float), or missing (`None`/`NaN`). -/
inductive Value where
  | vStr (s : String)
  | vNum (q : Rat)
  | vNone
deriving DecidableEq, Repr

/-- Python whitespace stripped by `str.strip()` (ASCII subset). -/
def isPySpace (c : Char) : Bool :=
  c = ' ' || c = '\t' || c = '\n' || c = '\r'

/-- `str.strip()`: drop leading and trailing whitespace. -/
def pyStrip (s : String) : String :=
  String.mk (((s.data.dropWhile isPySpace).reverse.dropWhile isPySpace).reverse)

/-- `str.lower()` (ASCII subset, which covers the player names handled). -/
def pyLower (s : String) : String :=
  String.mk (s.data.map Char.toLower)

/-- Split a character list on a separator, Python `str.split(sep)` style:
no collapsing of adjacent separators, the empty input yields `[[]]`. -/
def splitChars (sep : Char) : List Char → List (List Char)
  | [] => [[]]
  | c :: cs =>
    match splitChars sep cs with
    | [] => [[c]]
    | g :: gs => if c = sep then [] :: g :: gs else (c :: g) :: gs

/-- `str.split(sep)` on strings. -/
def pySplit (sep : Char) (s : String) : List String :=
  (splitChars sep s.data).map String.mk

/-- Does `pat` match at the head of `text`? -/
def matchesAt : List Char → List Char → Bool
  | [], _ => true
  | _ :: _, [] => false
  | p :: ps, t :: ts => p = t && matchesAt ps ts

/-- Does `pat` occur somewhere inside `text`?  (Substring test; models
`str.contains` for patterns free of regex metacharacters, which is the
only way the pipeline's claims exercise it.) -/
def occursIn (pat : List Char) : List Char → Bool
  | [] => pat.isEmpty
  | t :: ts => matchesAt pat (t :: ts) || occursIn pat ts

/-- Exact product of two rationals, via `mkRat` (kernel-reducible). -/
def ratMul (a b : Rat) : Rat :=
  mkRat (a.num * b.num) (a.den * b.den)

/-- Exact `a ≤ b` on rationals, by cross-multiplication (denominators are
positive in `Rat`). -/
def ratLeB (a b : Rat) : Bool :=
  a.num * (b.den : Int) ≤ b.num * (a.den : Int)

/-- Python truthiness for the cell values that occur in the pipeline:
`None` is falsy, `""` is falsy, `0` is falsy. -/
def pyTruthy : Value → Bool
  | .vNone => false
  | .vStr s => !s.isEmpty
  | .vNum q => !(q = 0)

/-- A decimal-notation parse modelling Python `float(str)` on the numeric
strings this pipeline receives: optional surrounding whitespace, optional
sign, digits with an optional fractional part (`"0"`, `"12.5"`, `".5"`,
`"5."`).  Anything else — in particular `""` and `"abc"` — fails. -/
def parseDigits : List Char → Option Nat
  | [] => none
  | cs => cs.foldl (fun acc c => match acc with
      | none => none
      | some n => if c.isDigit then some (n * 10 + (c.toNat - '0'.toNat)) else none)
      (some 0)

/-- Value of a fractional digit block `ds` as `digits / 10 ^ len`. -/
def fracValue (ds : List Char) : Option Rat :=
  (parseDigits ds).map (fun n => mkRat (n : Int) (10 ^ ds.length))

def pyFloatOfChars (cs : List Char) : Option Rat :=
  let cs := ((cs.dropWhile isPySpace).reverse.dropWhile isPySpace).reverse
  let (sgn, body) : Int × List Char :=
    match cs with
    | '-' :: rest => (-1, rest)
    | '+' :: rest => (1, rest)
    | rest => (1, rest)
  match splitChars '.' body with
  | [intPart] => (parseDigits intPart).map (fun n => mkRat (sgn * n) 1)
  | [intPart, fracPart] =>
    if intPart.isEmpty && fracPart.isEmpty then none
    else
      let ip : Option Nat := if intPart.isEmpty then some 0 else parseDigits intPart
      let fp : Option Rat := if fracPart.isEmpty then some 0 else fracValue fracPart
      match ip, fp with
      | some n, some f => some (ratMul (mkRat sgn 1) (mkRat (n : Int) 1 + f))
      | _, _ => none
  | _ => none

/-- Python `float(value)` on a cell value; `none` models a raised
`ValueError`/`TypeError`. -/
def pyFloat : Value → Option Rat
  | .vNum q => some q
  | .vStr s => pyFloatOfChars s.data
  | .vNone => none

/-! ## Rows and data frames -/

/-- A data-frame row: an association list from column label to cell. -/
abbrev Row := List (String × Value)

namespace Row

/-- Look up the first entry with the given column label. -/
def get (r : Row) (c : String) : Option Value :=
  (r.find? (fun p => p.1 = c)).map (·.2)

/-- The cell at column `c`, with missing entries read as `NaN`. -/
def cell (r : Row) (c : String) : Value :=
  (get r c).getD Value.vNone

/-- Set column `c` to `v`: overwrite every existing entry for `c`, or
append a fresh entry when the row has none (pandas column assignment). -/
def set (r : Row) (c : String) (v : Value) : Row :=
  if r.any (fun p => p.1 = c) then
    r.map (fun p => if p.1 = c then (c, v) else p)
  else
    r ++ [(c, v)]

/-- Remove every entry whose label is in `ks`. -/
def dropKeys (r : Row) (ks : List String) : Row :=
  r.filter (fun p => !(ks.contains p.1))

/-- Remove the entries with label `k`. -/
def removeKey (r : Row) (k : String) : Row :=
  r.filter (fun p => p.1 ≠ k)

/-- Append `sfx` to the labels listed in `coll` (the column-collision
renaming a pandas merge applies to one side). -/
def renameSfx (sfx : String) (coll : List String) (r : Row) : Row :=
  r.map (fun p => if coll.contains p.1 then (p.1 ++ sfx, p.2) else p)

end Row

/-- A pandas `DataFrame`: column labels plus rows. -/
structure DF where
  cols : List String
  rows : List Row
deriving DecidableEq, Repr

namespace DF

/-- `pd.DataFrame()`: no columns, no rows. -/
def free : DF := ⟨[], []⟩

/-- `df.empty`: true when either axis has length 0. -/
def isEmpty (df : DF) : Bool :=
  df.rows.isEmpty || df.cols.isEmpty

/-- `df[df[c] <pred>]`: keep the rows whose cell at `c` satisfies `p`;
raises `KeyError` when the column is absent (as `df[c]` does). -/
def selectPred (df : DF) (c : String) (p : Value → Bool) : Except String DF :=
  if df.cols.contains c then
    .ok ⟨df.cols, df.rows.filter (fun r => p (Row.cell r c))⟩
  else
    .error ("KeyError: " ++ c)

/-- `df[df[c] == v]`. -/
def selectEq (df : DF) (c : String) (v : Value) : Except String DF :=
  selectPred df c (fun x => x = v)

/-- One element of `df[src].str.strip().str.lower()`: strip+lower on a
string cell, `NaN` on anything else. -/
def strNormOf (src : String) (r : Row) : Value :=
  match Row.get r src with
  | some (.vStr s) => .vStr (pyLower (pyStrip s))
  | _ => .vNone

/-- `df[dst] = df[src].str.strip().str.lower()`: element-wise strip+lower,
with non-string cells becoming `NaN`; raises `KeyError` when `src` is
absent.  The assignment overwrites an existing `dst` column or appends a
new one. -/
def assignStrNorm (df : DF) (dst src : String) : Except String DF :=
  if df.cols.contains src then
    .ok ⟨(if df.cols.contains dst then df.cols else df.cols ++ [dst]),
         df.rows.map (fun r => Row.set r dst (strNormOf src r))⟩
  else
    .error ("KeyError: " ++ src)

/-- One output row of `l.merge(r, on=k, suffixes=(sl, sr))` built from a
matching pair: the left row with collision labels suffixed by `sl`,
followed by the right row minus the key column with collision labels
suffixed by `sr`. -/
def mergedRow (coll : List String) (k sl sr : String) (lr rr : Row) : Row :=
  Row.renameSfx sl coll lr ++ Row.renameSfx sr coll (Row.removeKey rr k)

/-- `l.merge(r, on=k, how="inner", suffixes=(sl, sr))`: inner join on `k`,
left-row order preserved, shared non-key labels suffixed on each side. -/
def merge (l r : DF) (k sl sr : String) : DF :=
  let coll := l.cols.filter (fun c => c ≠ k && r.cols.contains c)
  let outCols :=
    l.cols.map (fun c => if c ≠ k && r.cols.contains c then c ++ sl else c)
      ++ (r.cols.filter (fun c => c ≠ k)).map
          (fun c => if l.cols.contains c then c ++ sr else c)
  let outRows :=
    (l.rows.map (fun lr =>
      (r.rows.filter (fun rr => Row.get rr k = Row.get lr k)).map
        (mergedRow coll k sl sr lr))).flatten
  ⟨outCols, outRows⟩

/-- `df.drop(columns=names, errors="ignore")`. -/
def dropCols (df : DF) (names : List String) : DF :=
  ⟨df.cols.filter (fun c => !(names.contains c)),
   df.rows.map (fun r => Row.dropKeys r names)⟩

/-- `df[c] = df[c].apply(f)` (only reached under an `if c in df.columns`
guard in the source, so the column is present). -/
def applyCol (df : DF) (c : String) (f : Value → Value) : DF :=
  ⟨df.cols, df.rows.map (fun r => Row.set r c (f (Row.cell r c)))⟩

end DF

/-! ## `src/data/fangraphs.py` -/

/-- `normalize_numeric_column` (src/data/fangraphs.py:16-21):
`float(value) if value else None`, with `ValueError`/`TypeError` caught
and turned into `None`. -/
def normalize_numeric_column (value : Value) : Option Rat :=
  if pyTruthy value then pyFloat value else none

/-- `get_primary_position` (src/data/fangraphs.py:24-29): falsy input
(`None` or `""`) is returned unchanged, otherwise the first
`/`-delimited token, stripped.  Modelled on `Option String`, the two
input shapes the source handles. -/
def get_primary_position : Option String → Option String
  | none => none
  | some s =>
    if s.isEmpty then some s
    else some (pyStrip ((pySplit '/' s).headD ""))

/-- The `Value`-level use of `get_primary_position` inside row building
(`p.get("position")` / `player.get("Position")` is a string or absent). -/
def primaryPositionVal : Value → Value
  | .vStr s =>
    match get_primary_position (some s) with
    | some t => .vStr t
    | none => .vNone
  | v => v

/-- The collection loop of `fetch_rule5_players` (src/data/fangraphs.py:77-87):
each per-team future either delivers that team's row list or raises; the
loop extends the aggregate with delivered rows and records an error
message for a raising future, in completion order.  The completion order
of `as_completed` is arbitrary, so the theorems quantify over the list. -/
def collect_team_results : List (String × Except String (List Row)) → List Row × List String
  | [] => ([], [])
  | (abbr, res) :: rest =>
    let acc := collect_team_results rest
    match res with
    | .ok ps => (ps ++ acc.1, acc.2)
    | .error e => (acc.1, ("Error processing " ++ abbr ++ ": " ++ e) :: acc.2)

/-- The rows of all successfully completed team fetches, in completion
order. -/
def successRows (outs : List (String × Except String (List Row))) : List Row :=
  (outs.filterMap (fun o => match o.2 with | .ok ps => some ps | .error _ => none)).flatten

/-! ## `src/data/prospect_savant.py` -/

/-- `d.get(k)` on a parsed JSON object. -/
def dictGet (d : List (String × Value)) (k : String) : Value :=
  ((d.find? (fun p => p.1 = k)).map (·.2)).getD Value.vNone

/-- `score_p * 100 if score_p is not None else None`
(src/data/prospect_savant.py:30-31); `score_p` is a JSON number or null. -/
def prospectScoreVal : Value → Value
  | .vNum q => .vNum (ratMul q 100)
  | _ => .vNone

/-- One hitter row built by `fetch_prospect_savant_data`
(src/data/prospect_savant.py:33-49) from a parsed JSON player object. -/
def mkHitterRow (p : List (String × Value)) : Row :=
  [("Player", dictGet p "name"),
   ("Age", dictGet p "age"),
   ("Position", primaryPositionVal (dictGet p "Position")),
   ("Prospect Score", prospectScoreVal (dictGet p "score_p")),
   ("xBA", dictGet p "xba"),
   ("xSLG", dictGet p "xslg"),
   ("EV", dictGet p "ev"),
   ("Barrel%", dictGet p "barrelpa"),
   ("Chase%", dictGet p "chaserate"),
   ("K%", dictGet p "krate"),
   ("BB%", dictGet p "bbrate"),
   ("xwOBA", dictGet p "xwoba"),
   ("Sprint Speed", dictGet p "spd"),
   ("PA", dictGet p "pa"),
   ("Player Type", .vStr "Hitter")]

/-- The data frame `fetch_prospect_savant_data` returns when the hitters
payload holds the given player objects and the pitchers payload is empty
(the pitcher branch builds rows the same way with pitcher-specific
fields). -/
def prospect_savant_hitters_df (hitters : List (List (String × Value))) : DF :=
  ⟨["Player", "Age", "Position", "Prospect Score", "xBA", "xSLG", "EV",
    "Barrel%", "Chase%", "K%", "BB%", "xwOBA", "Sprint Speed", "PA",
    "Player Type"],
   hitters.map mkHitterRow⟩

/-! ## `src/data/data_processing.py` -/

/-- `merge_rule5_with_savant` (src/data/data_processing.py:6-20).  The
second component of the result is the final state of `savant_df`: line 15
assigns the `name_norm` column to the caller's frame in place (there is no
`.copy()` on `savant_df`, unlike `aaa_rule5`). -/
def merge_rule5_with_savant (rule5_df savant_df : DF) : Except String (DF × DF) :=
  match DF.selectEq rule5_df "Level" (.vStr "AAA") with
  | .error e => .error e
  | .ok aaa_rule5 =>
    if aaa_rule5.isEmpty || savant_df.isEmpty then
      .ok (DF.free, savant_df)
    else
      match DF.assignStrNorm aaa_rule5 "name_norm" "Player" with
      | .error e => .error e
      | .ok aaa2 =>
        match DF.assignStrNorm savant_df "name_norm" "Player" with
        | .error e => .error e
        | .ok savant2 =>
          let merged := DF.merge aaa2 savant2 "name_norm" "" "_savant"
          .ok (DF.dropCols merged ["name_norm", "Age_savant", "Position_savant"], savant2)

/-- Truthiness of the optional `search` argument (`if search:`). -/
def searchActive : Option String → Bool
  | some s => !s.isEmpty
  | none => false

/-- Truthiness of an optional list argument (`if teams:` etc.). -/
def listActive : Option (List String) → Bool
  | some l => !l.isEmpty
  | none => false

/-- `filtered_df["Player"].str.contains(search, case=False, na=False)`:
case-insensitive substring match on string cells, `NaN` rows excluded.
(Regex metacharacters in `search` are not modelled; no claim exercises an
active search pattern against a populated table.) -/
def searchPred (pat : String) : Value → Bool
  | .vStr s => occursIn (pyLower pat).data (pyLower s).data
  | _ => false

/-- `.isin(values)` for the string selections the UI passes. -/
def isinPred (vals : List String) : Value → Bool
  | .vStr s => vals.contains s
  | _ => false

/-- `.between(lo, hi)`: inclusive numeric range, `NaN` rows excluded. -/
def betweenPred (range : Rat × Rat) : Value → Bool
  | .vNum q => ratLeB range.1 q && ratLeB q range.2
  | _ => false

/-- One `if <active>: filtered_df = filtered_df[...]` step of
`apply_filters`. -/
def filterStep (active : Bool) (c : String) (p : Value → Bool) :
    Except String DF → Except String DF
  | .error e => .error e
  | .ok df => if active then DF.selectPred df c p else .ok df

/-- `apply_filters` (src/data/data_processing.py:23-43): `df.copy()`
followed by the five optional restrictions, each skipped when its argument
is falsy (`None`, `""`, `[]`); a 2-tuple `age_range` is always truthy. -/
def apply_filters (df : DF) (search : Option String)
    (teams positions levels : Option (List String))
    (age_range : Option (Rat × Rat)) : Except String DF :=
  (Except.ok df)
  |> filterStep (searchActive search) "Player" (searchPred (search.getD ""))
  |> filterStep (listActive teams) "Current Org" (isinPred (teams.getD []))
  |> filterStep (listActive positions) "Position" (isinPred (positions.getD []))
  |> filterStep (listActive levels) "Level" (isinPred (levels.getD []))
  |> filterStep age_range.isSome "Age" (betweenPred (age_range.getD (0, 0)))

/-! ## `src/data/fangraphs_minors_stats.py` -/

/-- The level hierarchy of `get_highest_level`
(src/data/fangraphs_minors_stats.py:247), highest first. -/
def level_order : List String := ["AAA", "AA", "A+", "A", "Rk", "FRk"]

/-- `[l.strip() for l in level_str.split(',')]`. -/
def levelTokens (s : String) : List String :=
  (pySplit ',' s).map pyStrip

/-- The `for level in level_order: if level in levels: return level`
loop. -/
def firstLevelIn (toks : List String) : List String → Option String
  | [] => none
  | l :: rest => if toks.contains l then some l else firstLevelIn toks rest

/-- `get_highest_level` (src/data/fangraphs_minors_stats.py:232-258) on a
string input. -/
def getHighestLevelStr (s : String) : String :=
  if s.isEmpty then s
  else
    match firstLevelIn (levelTokens s) level_order with
    | some l => l
    | none => s

/-- `get_highest_level` on a cell value: falsy or non-string input is
returned unchanged. -/
def get_highest_level : Value → Value
  | .vStr s => .vStr (getHighestLevelStr s)
  | v => v

/-- The position of `l` in a priority list (its length when absent). -/
def posIn : List String → String → Nat
  | [], _ => 0
  | x :: xs, l => if x = l then 0 else posIn xs l + 1

/-- The priority rank of a level under `level_order` (lower is higher). -/
def levelPos (l : String) : Nat :=
  posIn level_order l

/-- One side (batting or pitching) of `merge_rule5_with_minors_stats`
(src/data/fangraphs_minors_stats.py:190-207 and 210-227): guarded on a
nonempty stats frame carrying `PlayerName`, normalize names on a copy,
inner-join with suffixes `("", "_fg")`, drop `name_norm`, and reduce
`aLevel` when present. -/
def mergeMinorsSide (rule5n stats_df : DF) : DF :=
  if !stats_df.isEmpty && stats_df.cols.contains "PlayerName" then
    match DF.assignStrNorm stats_df "name_norm" "PlayerName" with
    | .error _ => DF.free
    | .ok stats2 =>
      let merged := DF.merge rule5n stats2 "name_norm" "" "_fg"
      let merged := DF.dropCols merged ["name_norm"]
      if merged.cols.contains "aLevel" then
        DF.applyCol merged "aLevel" get_highest_level
      else merged
  else DF.free

/-- `merge_rule5_with_minors_stats` (src/data/fangraphs_minors_stats.py:169-229).
Both stats frames are `.copy()`-ed before mutation and `rule5_df` is
rebound to a copy, so no argument is mutated; the guard on `PlayerName`
means the stats-side normalization cannot raise (the `.error` arm of
`mergeMinorsSide` is dead code). -/
def merge_rule5_with_minors_stats (rule5_df batting_df pitching_df : DF) :
    Except String (DF × DF) :=
  if rule5_df.isEmpty then
    .ok (DF.free, DF.free)
  else
    match DF.assignStrNorm rule5_df "name_norm" "Player" with
    | .error e => .error e
    | .ok rule5n =>
      .ok (mergeMinorsSide rule5n batting_df, mergeMinorsSide rule5n pitching_df)

/-! ## Concrete tables for witnesses and counterexamples -/

/-- The single-row eligibility table of the end-to-end scenario. -/
def eligScenario : DF :=
  ⟨["Player", "Current Org", "Level", "Org Rank"],
   [[("Player", .vStr "Jon Singleton"), ("Current Org", .vStr "HOU"),
     ("Level", .vStr "AAA"), ("Org Rank", .vNum 5)]]⟩

/-- The advanced-metrics table of the end-to-end scenario: one source
hitter object with name `"jon singleton "` and raw score `0.82`. -/
def savantScenario : DF :=
  prospect_savant_hitters_df
    [[("name", .vStr "jon singleton "), ("score_p", .vNum (mkRat 82 100))]]

/-- The state `savantScenario` is left in after
`merge_rule5_with_savant eligScenario savantScenario`: the `name_norm`
join-key column has been added in place. -/
def savantScenarioMut : DF :=
  ⟨["Player", "Age", "Position", "Prospect Score", "xBA", "xSLG", "EV",
    "Barrel%", "Chase%", "K%", "BB%", "xwOBA", "Sprint Speed", "PA",
    "Player Type", "name_norm"],
   [[("Player", .vStr "jon singleton "), ("Age", .vNone), ("Position", .vNone),
     ("Prospect Score", .vNum 82), ("xBA", .vNone), ("xSLG", .vNone),
     ("EV", .vNone), ("Barrel%", .vNone), ("Chase%", .vNone), ("K%", .vNone),
     ("BB%", .vNone), ("xwOBA", .vNone), ("Sprint Speed", .vNone),
     ("PA", .vNone), ("Player Type", .vStr "Hitter"),
     ("name_norm", .vStr "jon singleton")]]⟩

/-- The merged output of the end-to-end scenario. -/
def mergedScenario : DF :=
  ⟨["Player", "Current Org", "Level", "Org Rank", "Player_savant", "Age",
    "Position", "Prospect Score", "xBA", "xSLG", "EV", "Barrel%", "Chase%",
    "K%", "BB%", "xwOBA", "Sprint Speed", "PA", "Player Type"],
   [[("Player", .vStr "Jon Singleton"), ("Current Org", .vStr "HOU"),
     ("Level", .vStr "AAA"), ("Org Rank", .vNum 5),
     ("Player_savant", .vStr "jon singleton "), ("Age", .vNone),
     ("Position", .vNone), ("Prospect Score", .vNum 82), ("xBA", .vNone),
     ("xSLG", .vNone), ("EV", .vNone), ("Barrel%", .vNone),
     ("Chase%", .vNone), ("K%", .vNone), ("BB%", .vNone), ("xwOBA", .vNone),
     ("Sprint Speed", .vNone), ("PA", .vNone),
     ("Player Type", .vStr "Hitter")]]⟩

end Rule5

deriving instance DecidableEq for Except

namespace Rule5

/-! ## Supporting lemmas -/

theorem find?_mem_and_sat {α : Type} {p : α → Bool} {l : List α} {a : α}
    (h : l.find? p = some a) : a ∈ l ∧ p a = true :=
  ⟨List.mem_of_find?_eq_some h, List.find?_some h⟩

theorem firstLevelIn_eq_none {toks : List String} {order : List String}
    (h : ∀ l ∈ order, l ∉ toks) : firstLevelIn toks order = none := by
  induction order with
  | nil => rfl
  | cons o rest ih =>
    have ho : o ∉ toks := h o (by simp)
    simp only [firstLevelIn, ih (fun l hl => h l (by simp [hl]))]
    simp [ho]

theorem firstLevelIn_spec {toks order : List String} {l : String}
    (hl : l ∈ order) (ht : l ∈ toks) :
    ∃ r, firstLevelIn toks order = some r ∧ r ∈ order ∧ r ∈ toks ∧
      posIn order r ≤ posIn order l := by
  induction order with
  | nil => cases hl
  | cons o rest ih =>
    by_cases hc : o ∈ toks
    · exact ⟨o, by simp [firstLevelIn, hc], by simp, hc, by simp [posIn]⟩
    · have hlo : l ≠ o := fun e => hc (e ▸ ht)
      have hl' : l ∈ rest := by
        rcases List.mem_cons.mp hl with h | h
        · exact absurd h hlo
        · exact h
      obtain ⟨r, h1, h2, h3, h4⟩ := ih hl'
      have hro : r ≠ o := fun e => hc (e ▸ h3)
      refine ⟨r, ?_, by simp [h2], h3, ?_⟩
      · simp [firstLevelIn, hc, h1]
      · have hor : ¬ (o = r) := fun e => hro (Eq.symm e)
        have hol : ¬ (o = l) := fun e => hlo (Eq.symm e)
        simp only [posIn, if_neg hor, if_neg hol]
        omega

theorem levelTokens_empty : levelTokens "" = [""] := rfl

/-! ## Claim theorems -/

/-- C7: applying `apply_filters` with no filter argument supplied returns
the input table unchanged (the identity law of filtering). -/
theorem apply_filters_no_filters_identity (df : DF) :
    apply_filters df none none none none none = .ok df := rfl

/-- C7 witness: the identity law at a concrete table. -/
theorem apply_filters_no_filters_identity_witness :
    apply_filters eligScenario none none none none none = .ok eligScenario :=
  apply_filters_no_filters_identity eligScenario

/-- C10: falsy-but-present filter arguments — empty search string, empty
selection lists, absent age range — restrict nothing, so `apply_filters`
returns the table unchanged. -/
theorem apply_filters_falsy_identity (df : DF) :
    apply_filters df (some "") (some []) (some []) (some []) none = .ok df := rfl

/-- C10 witness: falsy filter arguments at a concrete table. -/
theorem apply_filters_falsy_identity_witness :
    apply_filters eligScenario (some "") (some []) (some []) (some []) none
      = .ok eligScenario :=
  apply_filters_falsy_identity eligScenario

/-- C6: merging the one-row eligibility table (Jon Singleton, HOU, AAA,
org rank 5) with the advanced-metrics table built from the source hitter
`{name: "jon singleton ", score_p: 0.82}` yields exactly one row whose
`Prospect Score` is `82.0` and whose `Org Rank` is `5`. -/
theorem merge_savant_scenario :
    (merge_rule5_with_savant eligScenario savantScenario).toOption.map
      (fun p => (p.1.rows.length,
                 Row.get (p.1.rows.headD []) "Prospect Score",
                 Row.get (p.1.rows.headD []) "Org Rank"))
    = some (1, some (.vNum 82), some (.vNum 5)) := by decide

/-- C3: numeric coercion distinguishes missing from zero — `"0"` parses
to `0.0` (not `None`), `""` and `"abc"` give `None`, and in general any
falsy input and any input whose `float` conversion fails give `None`,
never zero. -/
theorem normalize_numeric_spec :
    normalize_numeric_column (.vStr "0") = some 0
    ∧ normalize_numeric_column (.vStr "") = none
    ∧ normalize_numeric_column (.vStr "abc") = none
    ∧ (∀ v, pyTruthy v = false → normalize_numeric_column v = none)
    ∧ (∀ v, pyFloat v = none → normalize_numeric_column v = none) := by
  refine ⟨by decide, by decide, by decide, ?_, ?_⟩
  · intro v h
    simp [normalize_numeric_column, h]
  · intro v h
    simp [normalize_numeric_column, h]

/-- C3 witness: the general missing-not-zero clauses at concrete inputs
(`None` is falsy; `"1a2"` fails to parse). -/
theorem normalize_numeric_spec_witness :
    normalize_numeric_column Value.vNone = none
    ∧ normalize_numeric_column (.vStr "1a2") = none :=
  ⟨normalize_numeric_spec.2.2.2.1 Value.vNone (by decide),
   normalize_numeric_spec.2.2.2.2 (.vStr "1a2") (by decide)⟩

/-- C9: primary-position extraction — `"SS/2B"` gives `"SS"`, the empty
string and `None` are returned unchanged (as is every empty-or-absent
input), and every non-empty string gives its first `/`-delimited token,
stripped. -/
theorem get_primary_position_spec :
    get_primary_position (some "SS/2B") = some "SS"
    ∧ get_primary_position (some "") = some ""
    ∧ get_primary_position none = none
    ∧ (∀ o : Option String, (o = none ∨ o = some "") → get_primary_position o = o)
    ∧ (∀ s : String, s.isEmpty = false →
        get_primary_position (some s) = some (pyStrip ((pySplit '/' s).headD ""))) := by
  refine ⟨by decide, rfl, rfl, ?_, ?_⟩
  · rintro o (rfl | rfl) <;> rfl
  · intro s h
    simp [get_primary_position, h]

/-- C9 witness: the general clauses at concrete inputs. -/
theorem get_primary_position_spec_witness :
    get_primary_position (some "") = some ""
    ∧ get_primary_position (some "C/1B/OF") = some (pyStrip ((pySplit '/' "C/1B/OF").headD "")) :=
  ⟨get_primary_position_spec.2.2.2.1 (some "") (Or.inr rfl),
   get_primary_position_spec.2.2.2.2 "C/1B/OF" (by decide)⟩

/-- C5: level reduction — `"AA,AAA" ↦ "AAA"`, `"A,AA" ↦ "AA"`,
`"Rk" ↦ "Rk"`, a string with no recognized token (such as `"XYZ"`) is
returned unchanged, and whenever a recognized level occurs among the
comma-split tokens the result is a recognized token of the list with the
highest priority under `AAA, AA, A+, A, Rk, FRk`. -/
theorem get_highest_level_spec :
    get_highest_level (.vStr "AA,AAA") = .vStr "AAA"
    ∧ get_highest_level (.vStr "A,AA") = .vStr "AA"
    ∧ get_highest_level (.vStr "Rk") = .vStr "Rk"
    ∧ get_highest_level (.vStr "XYZ") = .vStr "XYZ"
    ∧ (∀ s, (∀ l ∈ level_order, l ∉ levelTokens s) → getHighestLevelStr s = s)
    ∧ (∀ s l, l ∈ level_order → l ∈ levelTokens s →
        getHighestLevelStr s ∈ level_order
        ∧ getHighestLevelStr s ∈ levelTokens s
        ∧ levelPos (getHighestLevelStr s) ≤ levelPos l) := by
  refine ⟨by decide, by decide, by decide, by decide, ?_, ?_⟩
  · intro s h
    simp [getHighestLevelStr, firstLevelIn_eq_none h]
  · intro s l hl ht
    have hne : s.isEmpty = false := by
      cases hemp : s.isEmpty with
      | false => rfl
      | true =>
        have hs : s = "" := (String.isEmpty_iff s).mp hemp
        subst hs
        rw [levelTokens_empty] at ht
        simp at ht
        subst ht
        simp [level_order] at hl
    obtain ⟨r, h1, h2, h3, h4⟩ := firstLevelIn_spec hl ht
    simp only [getHighestLevelStr, hne, Bool.false_eq_true, if_false, h1]
    exact ⟨h2, h3, h4⟩

/-- C1 counterexample: an entirely column-less empty eligibility table
makes `merge_rule5_with_savant` raise `KeyError` on the `Level` access
(line 8 runs before the empty check on line 10), and an empty column-less
table with an active search makes `apply_filters` raise `KeyError` on
`Player` — the claim's "returns an empty table without raising" is false
as stated. -/
theorem empty_input_raises_cex :
    merge_rule5_with_savant DF.free ⟨["Player"], [[("Player", .vStr "A")]]⟩
      = .error "KeyError: Level"
    ∧ apply_filters DF.free (some "x") none none none none
      = .error "KeyError: Player" := by decide

theorem filterStep_empty_ok (active : Bool) (c : String) (p : Value → Bool)
    (cols : List String) (h : active = true → c ∈ cols) :
    filterStep active c p (.ok ⟨cols, []⟩) = .ok ⟨cols, []⟩ := by
  cases active with
  | false => rfl
  | true =>
    have hmem : c ∈ cols := h rfl
    simp [filterStep, DF.selectPred, hmem]

/-- C1 amended: empty inputs short-circuit to an empty result without
raising provided the frames still carry the accessed columns — an
eligibility table with a `Level` column and no rows, or any eligibility
table with a `Level` column against an empty advanced-metrics table,
merges to the empty frame without touching `savant_df`; and
`apply_filters` on a rowless table returns it (empty) for any filter
arguments whose active filters' columns are present.  (A column-less
empty table instead raises `KeyError`, per the counterexample.) -/
theorem empty_input_shortcircuit :
    (∀ rule5 savant : DF, "Level" ∈ rule5.cols → rule5.rows = [] →
      merge_rule5_with_savant rule5 savant = .ok (DF.free, savant))
    ∧ (∀ rule5 savant : DF, "Level" ∈ rule5.cols → savant.isEmpty = true →
      merge_rule5_with_savant rule5 savant = .ok (DF.free, savant))
    ∧ (∀ (df : DF) search teams positions levels age_range,
        df.rows = [] →
        (searchActive search = true → "Player" ∈ df.cols) →
        (listActive teams = true → "Current Org" ∈ df.cols) →
        (listActive positions = true → "Position" ∈ df.cols) →
        (listActive levels = true → "Level" ∈ df.cols) →
        (age_range.isSome = true → "Age" ∈ df.cols) →
        apply_filters df search teams positions levels age_range
          = .ok ⟨df.cols, []⟩) := by
  refine ⟨?_, ?_, ?_⟩
  · intro rule5 savant hcol hrows
    simp [merge_rule5_with_savant, DF.selectEq, DF.selectPred, hcol, hrows,
      DF.isEmpty]
  · intro rule5 savant hcol hsav
    simp [merge_rule5_with_savant, DF.selectEq, DF.selectPred, hcol, hsav]
  · intro df search teams positions levels age_range hrows h1 h2 h3 h4 h5
    obtain ⟨cols, rows⟩ := df
    simp only at hrows h1 h2 h3 h4 h5
    subst hrows
    unfold apply_filters
    rw [filterStep_empty_ok _ _ _ _ h1, filterStep_empty_ok _ _ _ _ h2,
      filterStep_empty_ok _ _ _ _ h3, filterStep_empty_ok _ _ _ _ h4,
      filterStep_empty_ok _ _ _ _ h5]

/-- C1 witness: the amended short-circuits at concrete tables — a rowless
eligibility table with the `Level` column, an empty advanced-metrics
table, and a rowless table filtered with an active search. -/
theorem empty_input_shortcircuit_witness :
    merge_rule5_with_savant ⟨["Player", "Level"], []⟩ ⟨["Player"], []⟩
      = .ok (DF.free, ⟨["Player"], []⟩)
    ∧ merge_rule5_with_savant eligScenario DF.free = .ok (DF.free, DF.free)
    ∧ apply_filters ⟨["Player"], []⟩ (some "x") none none none none
      = .ok ⟨["Player"], []⟩ :=
  ⟨empty_input_shortcircuit.1 ⟨["Player", "Level"], []⟩ ⟨["Player"], []⟩
      (by decide) rfl,
   empty_input_shortcircuit.2.1 eligScenario DF.free (by decide) rfl,
   empty_input_shortcircuit.2.2 ⟨["Player"], []⟩ (some "x") none none none none
      rfl (fun _ => by decide) (fun hx => by cases hx) (fun hx => by cases hx)
      (fun hx => by cases hx) (fun hx => by cases hx)⟩

theorem collect_fst_eq_successRows (outs : List (String × Except String (List Row))) :
    (collect_team_results outs).1 = successRows outs := by
  induction outs with
  | nil => rfl
  | cons o rest ih =>
    obtain ⟨abbr, res⟩ := o
    cases res with
    | ok ps => simp [collect_team_results, successRows, List.filterMap_cons, ih]
    | error e => simpa [collect_team_results, successRows, List.filterMap_cons] using ih

theorem collect_error_mem {outs : List (String × Except String (List Row))}
    {X e} (h : (X, Except.error e) ∈ outs) :
    ("Error processing " ++ X ++ ": " ++ e) ∈ (collect_team_results outs).2 := by
  induction outs with
  | nil => cases h
  | cons o rest ih =>
    obtain ⟨abbr, res⟩ := o
    rcases List.mem_cons.mp h with heq | hmem
    · injection heq with hA hR
      subst hA
      subst hR
      simp [collect_team_results]
    · cases res with
      | ok ps => simpa [collect_team_results] using ih hmem
      | error e2 =>
        simp only [collect_team_results]
        exact List.mem_cons_of_mem _ (ih hmem)

theorem collect_ok_rows_mem {outs : List (String × Except String (List Row))}
    {Y ps} (h : (Y, Except.ok ps) ∈ outs) :
    ∀ row ∈ ps, row ∈ (collect_team_results outs).1 := by
  intro row hr
  rw [collect_fst_eq_successRows, successRows]
  exact List.mem_flatten.mpr ⟨ps, List.mem_filterMap.mpr ⟨(Y, .ok ps), h, rfl⟩, hr⟩

/-- C4: partial failure tolerance of the fetch loop — whatever the
completion order, if organization `X`'s task raised then the aggregate is
exactly the concatenation of the successful tasks' rows (so `X`
contributes zero rows), an error message naming `X` is recorded, and
every row of every successful organization is in the aggregate. -/
theorem fetch_partial_failure (outs : List (String × Except String (List Row)))
    (X e : String) (h : (X, Except.error e) ∈ outs) :
    (collect_team_results outs).1 = successRows outs
    ∧ ("Error processing " ++ X ++ ": " ++ e) ∈ (collect_team_results outs).2
    ∧ (∀ Y ps, (Y, Except.ok ps) ∈ outs →
        ∀ row ∈ ps, row ∈ (collect_team_results outs).1) :=
  ⟨collect_fst_eq_successRows outs, collect_error_mem h,
   fun _ _ hm => collect_ok_rows_mem hm⟩

/-- A concrete completion order in which one of three organizations
fails. -/
def outsW : List (String × Except String (List Row)) :=
  [("BAL", .ok [[("Player", .vStr "a"), ("Current Org", .vStr "BAL")]]),
   ("NYY", .error "timeout"),
   ("BOS", .ok [[("Player", .vStr "b"), ("Current Org", .vStr "BOS")]])]

/-- C4 witness: partial failure tolerance at a concrete completion
order. -/
theorem fetch_partial_failure_witness :
    (collect_team_results outsW).1 = successRows outsW
    ∧ ("Error processing " ++ "NYY" ++ ": " ++ "timeout")
        ∈ (collect_team_results outsW).2
    ∧ (∀ Y ps, (Y, Except.ok ps) ∈ outsW →
        ∀ row ∈ ps, row ∈ (collect_team_results outsW).1) :=
  fetch_partial_failure outsW "NYY" "timeout" (by decide)

/-- C5 witness: the general clauses at concrete inputs — `"XYZ"` has no
recognized token; `"AA"` occurs in `"AA,AAA"`. -/
theorem get_highest_level_spec_witness :
    getHighestLevelStr "XYZ" = "XYZ"
    ∧ (getHighestLevelStr "AA,AAA" ∈ level_order
       ∧ getHighestLevelStr "AA,AAA" ∈ levelTokens "AA,AAA"
       ∧ levelPos (getHighestLevelStr "AA,AAA") ≤ levelPos "AA") :=
  ⟨get_highest_level_spec.2.2.2.2.1 "XYZ" (by decide),
   get_highest_level_spec.2.2.2.2.2 "AA,AAA" "AA" (by decide) (by decide)⟩


/-! ## Row-update lemmas -/

theorem Row.get_cons (x : String) (v : Value) (rest : Row) (c : String) :
    Row.get ((x, v) :: rest) c = if x = c then some v else Row.get rest c := by
  unfold Row.get
  rw [List.find?_cons]
  by_cases h : x = c <;> simp [h]

theorem Row.get_map_set_ne (r : Row) (c c' : String) (v : Value) (h : c' ≠ c) :
    Row.get (r.map (fun p => if p.1 = c then (c, v) else p)) c' = Row.get r c' := by
  induction r with
  | nil => rfl
  | cons p rest ih =>
    obtain ⟨a, b⟩ := p
    by_cases ha : a = c
    · subst ha
      have hne : ¬ (a = c') := fun e => h (Eq.symm e)
      simp [Row.get_cons, hne, ih]
    · simp only [List.map_cons, if_neg ha, Row.get_cons]
      by_cases hac : a = c'
      · simp [hac]
      · simp [hac, ih]

theorem Row.get_set_ne (r : Row) (c c' : String) (v : Value) (h : c' ≠ c) :
    Row.get (Row.set r c v) c' = Row.get r c' := by
  unfold Row.set
  split
  · exact Row.get_map_set_ne r c c' v h
  · unfold Row.get
    rw [List.find?_append]
    have hne : ¬ (c = c') := fun e => h (Eq.symm e)
    simp [List.find?_cons, hne]

theorem Row.any_key_map_self (r : Row) (c : String) (v : Value)
    (h : r.any (fun p => p.1 = c) = false) :
    r.map (fun p => if p.1 = c then (c, v) else p) = r := by
  induction r with
  | nil => rfl
  | cons p rest ih =>
    obtain ⟨a, b⟩ := p
    simp only [List.any_cons, Bool.or_eq_false_iff] at h
    have ha : ¬ (a = c) := by simpa using h.1
    simp only [List.map_cons, if_neg ha, ih h.2]

theorem Row.any_map_set (r : Row) (c : String) (v : Value)
    (h : r.any (fun p => p.1 = c) = true) :
    (r.map (fun p => if p.1 = c then (c, v) else p)).any
      (fun p => p.1 = c) = true := by
  induction r with
  | nil => cases h
  | cons p rest ih =>
    obtain ⟨a, b⟩ := p
    by_cases ha : a = c
    · simp [ha]
    · have h' : rest.any (fun p => (p.1 = c : Bool)) = true := by
        simpa [ha] using h
      simp [ha, ih h']

theorem Row.set_any (r : Row) (c : String) (v : Value) :
    (Row.set r c v).any (fun p => p.1 = c) = true := by
  unfold Row.set
  split
  next h => exact Row.any_map_set r c v h
  next h => simp

theorem Row.set_set_same (r : Row) (c : String) (v : Value) :
    Row.set (Row.set r c v) c v = Row.set r c v := by
  have hany := Row.set_any r c v
  set r' := Row.set r c v with hg
  unfold Row.set
  rw [if_pos hany, hg]
  unfold Row.set
  split
  next h =>
    rw [List.map_map]
    refine List.map_congr_left ?_
    intro p _
    by_cases hp : p.1 = c
    · simp [Function.comp, hp]
    · simp [Function.comp, hp]
  next h =>
    have hfalse : r.any (fun p => p.1 = c) = false := by
      rwa [Bool.not_eq_true] at h
    rw [List.map_append, Row.any_key_map_self r c v hfalse]
    simp

/-! ## Assignment lemmas -/

theorem assignStrNorm_ok_contains {df df' : DF} {dst src : String}
    (h : DF.assignStrNorm df dst src = .ok df') :
    df.cols.contains src = true := by
  unfold DF.assignStrNorm at h
  split at h
  · assumption
  · cases h

theorem assignStrNorm_ok_elim {df df' : DF} {dst src : String}
    (h : DF.assignStrNorm df dst src = .ok df') :
    df'.cols = (if df.cols.contains dst then df.cols else df.cols ++ [dst])
    ∧ df'.rows = df.rows.map (fun r => Row.set r dst (DF.strNormOf src r)) := by
  unfold DF.assignStrNorm at h
  split at h
  · injection h with h'
    subst h'
    exact ⟨rfl, rfl⟩
  · cases h

theorem assignStrNorm_idem {df df' : DF} {dst src : String} (hds : src ≠ dst)
    (h : DF.assignStrNorm df dst src = .ok df') :
    DF.assignStrNorm df' dst src = .ok df' := by
  have hsrc := assignStrNorm_ok_contains h
  obtain ⟨hcols, hrows⟩ := assignStrNorm_ok_elim h
  have hsrcm : src ∈ df.cols := by simpa using hsrc
  have hsrc' : df'.cols.contains src = true := by
    rw [hcols]
    split <;> simp [hsrcm]
  have hdst' : df'.cols.contains dst = true := by
    rw [hcols]
    split
    next hd => exact hd
    next => simp
  have hrows' : df'.rows.map (fun r => Row.set r dst (DF.strNormOf src r))
      = df'.rows := by
    rw [hrows, List.map_map]
    refine List.map_congr_left ?_
    intro r _
    have hget : DF.strNormOf src (Row.set r dst (DF.strNormOf src r))
        = DF.strNormOf src r := by
      unfold DF.strNormOf
      rw [Row.get_set_ne r dst src _ hds]
    simp only [Function.comp_apply, hget]
    exact Row.set_set_same r dst _
  unfold DF.assignStrNorm
  rw [if_pos hsrc', if_pos hdst', hrows']

/-! ## C2: determinism and mutation of the merges -/

/-- C2 counterexample: `merge_rule5_with_savant` does not leave its
second argument unchanged — on the end-to-end scenario tables the
advanced-metrics frame comes back with an extra `name_norm` column
(line 15 of `data_processing.py` assigns into the caller's frame; only
`aaa_rule5` is `.copy()`-ed). -/
theorem merge_savant_mutates_cex :
    (merge_rule5_with_savant eligScenario savantScenario).toOption.map
      (fun p => p.2) = some savantScenarioMut
    ∧ savantScenarioMut ≠ savantScenario := by decide

/-- C2 amended: both merges are deterministic functions of their inputs
(the embedding is purely functional, and `merge_rule5_with_minors_stats`
copies every frame it writes to, leaving its arguments unchanged), but
`merge_rule5_with_savant` mutates the advanced-metrics frame in place by
adding the `name_norm` column whenever the merge path is reached.
Repeated calls still return the same output: the state the savant frame
is left in is a fixed point, and calling again from it reproduces the
same merged result and the same state. -/
theorem merge_savant_repeat (r s m s1 : DF)
    (h : merge_rule5_with_savant r s = .ok (m, s1)) :
    merge_rule5_with_savant r s1 = .ok (m, s1) := by
  unfold merge_rule5_with_savant at h ⊢
  split at h
  next e hsel => cases h
  next aaa hsel =>
    simp only [hsel]
    by_cases hc : (aaa.isEmpty || s.isEmpty) = true
    · rw [if_pos hc] at h
      simp only [Except.ok.injEq, Prod.mk.injEq] at h
      obtain ⟨rfl, rfl⟩ := h
      rw [if_pos hc]
    · rw [if_neg hc] at h
      split at h
      next e hA => cases h
      next aaa2 hA =>
        split at h
        next e hS => cases h
        next savant2 hS =>
          simp only [Except.ok.injEq, Prod.mk.injEq] at h
          obtain ⟨rfl, rfl⟩ := h
          have hcond : (aaa.isEmpty || savant2.isEmpty) = false := by
            simp only [Bool.or_eq_true_iff] at hc
            push_neg at hc
            obtain ⟨hcols, hrows⟩ := assignStrNorm_ok_elim hS
            have haE : aaa.isEmpty = false := by
              cases he : aaa.isEmpty
              · rfl
              · exact absurd he hc.1
            have hsE : s.isEmpty = false := by
              cases he : s.isEmpty
              · rfl
              · exact absurd he hc.2
            have hs2 : savant2.isEmpty = false := by
              unfold DF.isEmpty at hsE ⊢
              simp only [Bool.or_eq_false_iff] at hsE
              rw [hrows, hcols]
              obtain ⟨h1, h2⟩ := hsE
              refine (Bool.or_eq_false_iff).mpr ⟨?_, ?_⟩
              · cases hr : s.rows with
                | nil => rw [hr] at h1; simp at h1
                | cons a as => simp [hr]
              · split
                · exact h2
                · simp
            rw [haE, hs2]
            rfl
          have hnc : ¬ ((aaa.isEmpty || savant2.isEmpty) = true) := by
            simp [hcond]
          simp only [if_neg hnc, hA,
            assignStrNorm_idem (show ("Player" : String) ≠ "name_norm" by decide) hS]

/-- C2 witness: the repeat law at the end-to-end scenario tables — the
first call's output state is reached from `savantScenario`, and calling
again from the mutated state reproduces the same result. -/
theorem merge_savant_repeat_witness :
    merge_rule5_with_savant eligScenario savantScenarioMut
      = .ok (mergedScenario, savantScenarioMut) :=
  merge_savant_repeat eligScenario savantScenario mergedScenario
    savantScenarioMut (by decide)

/-! ## C8: column-collision policy of the merges -/

theorem dropCols_not_mem (df : DF) (names : List String) (c : String)
    (h : names.contains c = true) :
    c ∉ (DF.dropCols df names).cols := by
  intro hmem
  unfold DF.dropCols at hmem
  obtain ⟨_, hp⟩ := List.mem_filter.mp hmem
  simp only [Bool.not_eq_true'] at hp
  rw [h] at hp
  cases hp

theorem mergeMinorsSide_no_name_norm (rule5n stats : DF) :
    "name_norm" ∉ (mergeMinorsSide rule5n stats).cols := by
  unfold mergeMinorsSide
  split
  · split
    · simp [DF.free]
    · dsimp only
      split
      · exact dropCols_not_mem _ _ _ (by decide)
      · exact dropCols_not_mem _ _ _ (by decide)
  · simp [DF.free]

theorem Row.get_append (r1 r2 : Row) (c : String) :
    Row.get (r1 ++ r2) c = (Row.get r1 c).or (Row.get r2 c) := by
  unfold Row.get
  rw [List.find?_append]
  generalize List.find? _ r1 = o1
  cases o1 <;> simp

theorem Row.renameSfx_empty (coll : List String) (r : Row) :
    Row.renameSfx "" coll r = r := by
  unfold Row.renameSfx
  have hf : ∀ p : String × Value,
      (if coll.contains p.1 then (p.1 ++ "", p.2) else p) = p := by
    intro p
    split
    · simp
    · rfl
  simp only [hf, List.map_id']

theorem Row.removeKey_cons (d : String) (v : Value) (rest : Row) (k : String) :
    Row.removeKey ((d, v) :: rest) k
      = if d = k then Row.removeKey rest k
        else (d, v) :: Row.removeKey rest k := by
  unfold Row.removeKey
  rw [List.filter_cons]
  by_cases h : d = k <;> simp [h]

theorem Row.renameSfx_cons (sfx : String) (coll : List String) (d : String)
    (v : Value) (rest : Row) :
    Row.renameSfx sfx coll ((d, v) :: rest)
      = (if coll.contains d then (d ++ sfx, v) else (d, v))
          :: Row.renameSfx sfx coll rest := rfl

theorem append_cancel_str {a b s : String} (h : a ++ s = b ++ s) : a = b := by
  cases a
  cases b
  cases s
  simp [String.ext_iff] at h ⊢
  exact h

theorem renameSfx_right_get (coll : List String) (k sfx c : String) (rr : Row)
    (hc : coll.contains c = true) (hck : ¬ (c = k))
    (hr : Row.get rr (c ++ sfx) = none) :
    Row.get (Row.renameSfx sfx coll (Row.removeKey rr k)) (c ++ sfx)
      = Row.get rr c := by
  induction rr with
  | nil => rfl
  | cons p rest ih =>
    obtain ⟨d, v⟩ := p
    have hdt : ¬ (d = c ++ sfx) := by
      intro hd
      rw [Row.get_cons, if_pos hd] at hr
      cases hr
    have hr' : Row.get rest (c ++ sfx) = none := by
      rwa [Row.get_cons, if_neg hdt] at hr
    by_cases hdk : d = k
    · have hdc : ¬ (d = c) := fun e => hck (Eq.trans (Eq.symm e) hdk)
      rw [Row.removeKey_cons, if_pos hdk, Row.get_cons, if_neg hdc]
      exact ih hr'
    · rw [Row.removeKey_cons, if_neg hdk, Row.renameSfx_cons]
      by_cases hdc : d = c
      · subst hdc
        rw [if_pos hc, Row.get_cons, if_pos rfl, Row.get_cons, if_pos rfl]
      · by_cases hcoll : coll.contains d = true
        · have hne : ¬ (d ++ sfx = c ++ sfx) := fun he => hdc (append_cancel_str he)
          rw [if_pos hcoll, Row.get_cons, if_neg hne, Row.get_cons, if_neg hdc]
          exact ih hr'
        · rw [if_neg hcoll, Row.get_cons, if_neg hdt, Row.get_cons, if_neg hdc]
          exact ih hr'

theorem mergedRow_left_get (coll : List String) (k sfx : String) (lr rr : Row)
    (c : String) (h : (Row.get lr c).isSome = true) :
    Row.get (DF.mergedRow coll k "" sfx lr rr) c = Row.get lr c := by
  unfold DF.mergedRow
  rw [Row.renameSfx_empty, Row.get_append]
  cases hg : Row.get lr c with
  | some v => rfl
  | none => rw [hg] at h; cases h

theorem mergedRow_right_get (coll : List String) (k sfx : String) (lr rr : Row)
    (c : String) (hc : coll.contains c = true) (hck : ¬ (c = k))
    (hl : Row.get lr (c ++ sfx) = none) (hr : Row.get rr (c ++ sfx) = none) :
    Row.get (DF.mergedRow coll k "" sfx lr rr) (c ++ sfx) = Row.get rr c := by
  unfold DF.mergedRow
  rw [Row.renameSfx_empty, Row.get_append, hl, Option.none_or]
  exact renameSfx_right_get coll k sfx c rr hc hck hr

/-- C8: column-collision policy — the normalization key `name_norm` is
absent from the output of every join of the merge engine (the savant
merge and both minors merges), and at join level no primary column is
silently overwritten: in a merged row built with the engine's suffix
pair `("", sfx)`, every column present in the primary (left) row keeps
the primary's value, and a collision column's secondary (right) value
appears only under the suffixed label. -/
theorem merge_collision_policy :
    (∀ rule5 savant m s1,
        merge_rule5_with_savant rule5 savant = .ok (m, s1) →
        "name_norm" ∉ m.cols)
    ∧ (∀ rule5 batting pitching hm pm,
        merge_rule5_with_minors_stats rule5 batting pitching = .ok (hm, pm) →
        "name_norm" ∉ hm.cols ∧ "name_norm" ∉ pm.cols)
    ∧ (∀ (coll : List String) (k sfx : String) (lr rr : Row) (c : String),
        (Row.get lr c).isSome = true →
        Row.get (DF.mergedRow coll k "" sfx lr rr) c = Row.get lr c)
    ∧ (∀ (coll : List String) (k sfx : String) (lr rr : Row) (c : String),
        coll.contains c = true → ¬ (c = k) →
        Row.get lr (c ++ sfx) = none → Row.get rr (c ++ sfx) = none →
        Row.get (DF.mergedRow coll k "" sfx lr rr) (c ++ sfx) = Row.get rr c) := by
  refine ⟨?_, ?_, mergedRow_left_get, mergedRow_right_get⟩
  · intro rule5 savant m s1 h
    unfold merge_rule5_with_savant at h
    split at h
    next e hsel => cases h
    next aaa hsel =>
      by_cases hcnd : (aaa.isEmpty || savant.isEmpty) = true
      · rw [if_pos hcnd] at h
        simp only [Except.ok.injEq, Prod.mk.injEq] at h
        obtain ⟨rfl, rfl⟩ := h
        simp [DF.free]
      · rw [if_neg hcnd] at h
        split at h
        next e hA => cases h
        next aaa2 hA =>
          split at h
          next e hS => cases h
          next savant2 hS =>
            simp only [Except.ok.injEq, Prod.mk.injEq] at h
            obtain ⟨rfl, rfl⟩ := h
            exact dropCols_not_mem _ _ _ (by decide)
  · intro rule5 batting pitching hm pm h
    unfold merge_rule5_with_minors_stats at h
    split at h
    · simp only [Except.ok.injEq, Prod.mk.injEq] at h
      obtain ⟨rfl, rfl⟩ := h
      exact ⟨by simp [DF.free], by simp [DF.free]⟩
    · split at h
      next e hA => cases h
      next rule5n hA =>
        simp only [Except.ok.injEq, Prod.mk.injEq] at h
        obtain ⟨rfl, rfl⟩ := h
        exact ⟨mergeMinorsSide_no_name_norm _ _, mergeMinorsSide_no_name_norm _ _⟩

/-- A one-row minors batting table colliding with the eligibility table
only on the join key. -/
def battingW : DF :=
  ⟨["PlayerName", "aLevel", "PA"],
   [[("PlayerName", .vStr "Jon Singleton"), ("aLevel", .vStr "AA,AAA"),
     ("PA", .vNum 100)]]⟩

/-- The hitters side of merging `eligScenario` with `battingW`. -/
def minorsHittersW : DF :=
  ⟨["Player", "Current Org", "Level", "Org Rank", "PlayerName", "aLevel", "PA"],
   [[("Player", .vStr "Jon Singleton"), ("Current Org", .vStr "HOU"),
     ("Level", .vStr "AAA"), ("Org Rank", .vNum 5),
     ("PlayerName", .vStr "Jon Singleton"), ("aLevel", .vStr "AAA"),
     ("PA", .vNum 100)]]⟩

/-- C8 witness: the collision policy at concrete inputs — `name_norm` is
absent from the concrete savant and minors merge outputs, and on a
concrete colliding `Age` column the merged row keeps the left value under
`Age` while the right value sits under `Age_savant`. -/
theorem merge_collision_policy_witness :
    "name_norm" ∉ mergedScenario.cols
    ∧ ("name_norm" ∉ minorsHittersW.cols ∧ "name_norm" ∉ DF.free.cols)
    ∧ Row.get (DF.mergedRow ["Age"] "name_norm" "" "_savant"
        [("Age", .vNum 25)] [("Age", .vNum 26)]) "Age" = some (.vNum 25)
    ∧ Row.get (DF.mergedRow ["Age"] "name_norm" "" "_savant"
        [("Age", .vNum 25)] [("Age", .vNum 26)]) ("Age" ++ "_savant")
        = some (.vNum 26) := by
  refine ⟨?_, ?_, ?_, ?_⟩
  · exact merge_collision_policy.1 eligScenario savantScenario mergedScenario
      savantScenarioMut (by decide)
  · exact merge_collision_policy.2.1 eligScenario battingW DF.free
      minorsHittersW DF.free (by decide)
  · rw [merge_collision_policy.2.2.1 ["Age"] "name_norm" "_savant"
      [("Age", .vNum 25)] [("Age", .vNum 26)] "Age" (by decide)]
    decide
  · rw [merge_collision_policy.2.2.2 ["Age"] "name_norm" "_savant"
      [("Age", .vNum 25)] [("Age", .vNum 26)] "Age" (by decide) (by decide)
      (by decide) (by decide)]
    decide

end Rule5
